import Mathlib

/-!
# Verification of the fluvio produce-request wire protocol

Shallow embedding of `src/crates/fluvio-dataplane-protocol/src/produce/request.rs`:
the version-gated `ProduceRequest` envelope, its derived encoder/decoder, the
isolation mapping, and the zero-copy `file_encode` path.

Bytes are modelled as natural numbers below 256 (the encoders only ever emit
such values); machine integers (`i16`, `i32`) are modelled as `Int` with
explicit two's-complement reduction modulo `2^16` / `2^32` where it matters.
Fallible decoding returns `Except String`.

The primitive codec for scalars, strings and sequences lives in a collaborator
crate that is not part of the sources under verification; those primitives are
modelled from the spec (big-endian fixed-width integers, length-prefixed
strings, a nullable-string encoding that distinguishes "absent" from "empty",
and length-prefixed sequences).
-/

namespace Fluvio

/-- Decidable equality of decode results. -/
instance {ε α : Type} [DecidableEq ε] [DecidableEq α] : DecidableEq (Except ε α)
  | .ok a, .ok b =>
      if h : a = b then .isTrue (by rw [h])
      else .isFalse (by intro hh; cases hh; exact h rfl)
  | .ok _, .error _ => .isFalse (by intro h; cases h)
  | .error _, .ok _ => .isFalse (by intro h; cases h)
  | .error e, .error f =>
      if h : e = f then .isTrue (by rw [h])
      else .isFalse (by intro hh; cases hh; exact h rfl)

/-! ## Primitive codec

Modelled from the spec: the scalar/string/sequence codec of the core protocol
crate (out of scope in the source tree; §6 of the spec describes the wire
layout: fixed-width big-endian signed integers, strings with a 16-bit length
prefix, nullable strings distinguishing absent from empty, and sequences with
a 32-bit count prefix). -/

/-- Big-endian two's-complement encoding of a signed 16-bit value. -/
def encodeI16 (x : Int) : List Nat :=
  [(x % 65536).toNat / 256, (x % 65536).toNat % 256]

/-- Big-endian two's-complement encoding of a signed 32-bit value. -/
def encodeI32 (x : Int) : List Nat :=
  [(x % 4294967296).toNat / 16777216,
   (x % 4294967296).toNat / 65536 % 256,
   (x % 4294967296).toNat / 256 % 256,
   (x % 4294967296).toNat % 256]

/-- A string (byte content) with a signed 16-bit length prefix. -/
def encodeString (s : List Nat) : List Nat :=
  encodeI16 (s.length : Int) ++ s

/-- Nullable string: `none` is written as length `-1`; `some s` as an
ordinary length-prefixed string.  Distinguishes "absent" from "empty". -/
def encodeNullableString : Option (List Nat) → List Nat
  | none => encodeI16 (-1)
  | some s => encodeI16 (s.length : Int) ++ s

/-- A sequence with a signed 32-bit count prefix followed by the
back-to-back encodings of its items. -/
def encodeVec (enc : α → List Nat) (xs : List α) : List Nat :=
  encodeI32 (xs.length : Int) ++ (xs.map enc).flatten

/-- Decode a big-endian two's-complement signed 16-bit value. -/
def decodeI16 : List Nat → Except String (Int × List Nat)
  | b1 :: b0 :: rest =>
      .ok (if b1 * 256 + b0 < 32768
             then ((b1 * 256 + b0 : Nat) : Int)
             else ((b1 * 256 + b0 : Nat) : Int) - 65536, rest)
  | _ => .error "not enough bytes for i16"

/-- Decode a big-endian two's-complement signed 32-bit value. -/
def decodeI32 : List Nat → Except String (Int × List Nat)
  | b3 :: b2 :: b1 :: b0 :: rest =>
      .ok (if b3 * 16777216 + b2 * 65536 + b1 * 256 + b0 < 2147483648
             then ((b3 * 16777216 + b2 * 65536 + b1 * 256 + b0 : Nat) : Int)
             else ((b3 * 16777216 + b2 * 65536 + b1 * 256 + b0 : Nat) : Int) - 4294967296,
           rest)
  | _ => .error "not enough bytes for i32"

/-- Read exactly `n` raw bytes. -/
def readFixed : Nat → List Nat → Except String (List Nat × List Nat)
  | 0, bs => .ok ([], bs)
  | _ + 1, [] => .error "not enough bytes"
  | n + 1, b :: bs => do
      let (xs, rest) ← readFixed n bs
      .ok (b :: xs, rest)

/-- Decode a length-prefixed string; a negative length is a codec error. -/
def decodeString (bs : List Nat) : Except String (List Nat × List Nat) := do
  let (n, bs) ← decodeI16 bs
  if n < 0 then .error "negative string length"
  else readFixed n.toNat bs

/-- Decode a nullable string; a negative length means `none`. -/
def decodeNullableString (bs : List Nat) :
    Except String (Option (List Nat) × List Nat) := do
  let (n, bs) ← decodeI16 bs
  if n < 0 then .ok (none, bs)
  else do
    let (s, rest) ← readFixed n.toNat bs
    .ok (some s, rest)

/-- Decode exactly `n` items with the item decoder `dec`. -/
def decodeN (dec : List Nat → Except String (α × List Nat)) :
    Nat → List Nat → Except String (List α × List Nat)
  | 0, bs => .ok ([], bs)
  | n + 1, bs => do
      let (x, bs) ← dec bs
      let (xs, rest) ← decodeN dec n bs
      .ok (x :: xs, rest)

/-- Decode a count-prefixed sequence; a negative count is a codec error. -/
def decodeVec (dec : List Nat → Except String (α × List Nat)) (bs : List Nat) :
    Except String (List α × List Nat) := do
  let (n, bs) ← decodeI32 bs
  if n < 0 then .error "negative sequence length"
  else decodeN dec n.toNat bs

/-! ## Record payload

The in-memory `RecordSet<RawRecords>` payload is opaque to the request layer;
modelled from the spec as its raw byte content, serialized with a 32-bit
length prefix.  The file-backed `FileRecordSet` payload is modelled by the
byte content of its on-disk window, so that "the file-backed payload's bytes
equal the in-memory payload's bytes" becomes equality of the modelled field. -/

/-- Modelled from the spec: the in-memory record payload codec (collaborator
crate, not under the verified sources): a 32-bit length prefix followed by
the raw bytes. -/
def RecordSet.encode (r : List Nat) : List Nat :=
  encodeI32 (r.length : Int) ++ r

/-- Modelled from the spec: inverse of `RecordSet.encode`. -/
def RecordSet.decode (bs : List Nat) : Except String (List Nat × List Nat) := do
  let (n, bs) ← decodeI32 bs
  if n < 0 then .error "negative record payload length"
  else readFixed n.toNat bs

/-! ## Data model (from `request.rs`, lines 19-92)

The Rust structures are generic over the record payload `R`; both concrete
variants are modelled by the payload's byte content, so a single family of
structures serves both encode paths.  The `PhantomData` marker field carries
no run-time data and is omitted. -/

/-- `PartitionProduceData` (request.rs lines 82-92). -/
structure PartitionProduceData where
  partition_index : Int
  records : List Nat
deriving DecidableEq, Repr

/-- `TopicProduceData` (request.rs lines 69-80). -/
structure TopicProduceData where
  name : List Nat
  partitions : List PartitionProduceData
deriving DecidableEq, Repr

/-- `ProduceRequest` (request.rs lines 19-39).  `transactional_id` carries the
`#[fluvio(min_version = 3)]` gate, applied by the derived codec. -/
structure ProduceRequest where
  transactional_id : Option (List Nat)
  acks : Int
  timeout_ms : Int
  topics : List TopicProduceData
deriving DecidableEq, Repr

/-- `Isolation` (collaborator type; two levels, per the spec). -/
inductive Isolation
  | ReadCommitted
  | ReadUncommitted
deriving DecidableEq, Repr

/-- `ProduceRequest::isolation` (request.rs lines 48-53): `acks < 0` maps to
`ReadCommitted`, everything else to `ReadUncommitted`. -/
def ProduceRequest.isolation (req : ProduceRequest) : Isolation :=
  if req.acks < 0 then Isolation.ReadCommitted else Isolation.ReadUncommitted

/-- `Request::API_KEY` for `ProduceRequest` (request.rs line 60). -/
def ProduceRequest.API_KEY : Nat := 0

/-- `Request::MIN_API_VERSION` (request.rs line 62). -/
def ProduceRequest.MIN_API_VERSION : Int := 0

/-- `Request::MAX_API_VERSION` (request.rs line 63). -/
def ProduceRequest.MAX_API_VERSION : Int := 7

/-- `Request::DEFAULT_API_VERSION` (request.rs line 64). -/
def ProduceRequest.DEFAULT_API_VERSION : Int := 7

/-! ## Derived standard encoder/decoder

Modelled from the spec's contract for the derive mechanism (§9, §4.1): each
field is encoded/decoded in declared order; a field with `min_version = v₀`
is written and read only when `version ≥ v₀`; the version value is passed
down unchanged. -/

/-- Standard encoding of a partition entry. -/
def PartitionProduceData.encode (p : PartitionProduceData) (_version : Int) :
    List Nat :=
  encodeI32 p.partition_index ++ RecordSet.encode p.records

/-- Standard encoding of a topic entry. -/
def TopicProduceData.encode (t : TopicProduceData) (version : Int) : List Nat :=
  encodeString t.name ++ encodeVec (fun p => p.encode version) t.partitions

/-- Standard encoding of a produce request: `transactional_id` is written
only for `version ≥ 3`; `acks`, `timeout_ms` and `topics` unconditionally,
in declared order. -/
def ProduceRequest.encode (req : ProduceRequest) (version : Int) : List Nat :=
  (if 3 ≤ version then encodeNullableString req.transactional_id else []) ++
    encodeI16 req.acks ++ encodeI32 req.timeout_ms ++
    encodeVec (fun t => t.encode version) req.topics

/-- Standard decoding of a partition entry. -/
def PartitionProduceData.decode (bs : List Nat) (_version : Int) :
    Except String (PartitionProduceData × List Nat) := do
  let (idx, bs) ← decodeI32 bs
  let (recs, rest) ← RecordSet.decode bs
  .ok ({ partition_index := idx, records := recs }, rest)

/-- Standard decoding of a topic entry. -/
def TopicProduceData.decode (bs : List Nat) (version : Int) :
    Except String (TopicProduceData × List Nat) := do
  let (nm, bs) ← decodeString bs
  let (parts, rest) ← decodeVec (fun b => PartitionProduceData.decode b version) bs
  .ok ({ name := nm, partitions := parts }, rest)

/-- Standard decoding of a produce request, mirroring the version gate of the
encoder: `transactional_id` is read only for `version ≥ 3`. -/
def ProduceRequest.decode (bs : List Nat) (version : Int) :
    Except String (ProduceRequest × List Nat) := do
  let (tid, bs) ← if 3 ≤ version then decodeNullableString bs else .ok (none, bs)
  let (acks, bs) ← decodeI16 bs
  let (tms, bs) ← decodeI32 bs
  let (tops, rest) ← decodeVec (fun b => TopicProduceData.decode b version) bs
  .ok ({ transactional_id := tid, acks := acks, timeout_ms := tms,
         topics := tops }, rest)

/-! ## Well-formedness

Range side conditions that the Rust types enforce statically (`i16`, `i32`
fields) or that keep length prefixes within their signed width. -/

/-- Field ranges for a partition entry. -/
def PartitionProduceData.valid (p : PartitionProduceData) : Prop :=
  -2147483648 ≤ p.partition_index ∧ p.partition_index < 2147483648 ∧
    p.records.length < 2147483648

instance (p : PartitionProduceData) : Decidable p.valid := by
  unfold PartitionProduceData.valid; infer_instance

/-- Field ranges for a topic entry. -/
def TopicProduceData.valid (t : TopicProduceData) : Prop :=
  t.name.length < 32768 ∧ t.partitions.length < 2147483648 ∧
    ∀ p ∈ t.partitions, p.valid

instance (t : TopicProduceData) : Decidable t.valid := by
  unfold TopicProduceData.valid; infer_instance

/-- Field ranges for a produce request. -/
def ProduceRequest.valid (req : ProduceRequest) : Prop :=
  (∀ s ∈ req.transactional_id, s.length < 32768) ∧
    -32768 ≤ req.acks ∧ req.acks < 32768 ∧
    -2147483648 ≤ req.timeout_ms ∧ req.timeout_ms < 2147483648 ∧
    req.topics.length < 2147483648 ∧
    ∀ t ∈ req.topics, t.valid

instance (req : ProduceRequest) : Decidable req.valid := by
  unfold ProduceRequest.valid
  infer_instance


/-! ## Round-trip lemmas for the standard codec -/

theorem ok_bind {ε α β : Type} (a : α) (f : α → Except ε β) :
    (Except.ok a >>= f : Except ε β) = f a := rfl

theorem error_bind {ε α β : Type} (e : ε) (f : α → Except ε β) :
    (Except.error e >>= f : Except ε β) = Except.error e := rfl

theorem decodeI16_encodeI16 (x : Int) (rest : List Nat)
    (h1 : -32768 ≤ x) (h2 : x < 32768) :
    decodeI16 (encodeI16 x ++ rest) = .ok (x, rest) := by
  have hnn : 0 ≤ x % 65536 := Int.emod_nonneg x (by norm_num)
  have hu : (x % 65536).toNat / 256 * 256 + (x % 65536).toNat % 256
      = (x % 65536).toNat := by omega
  simp only [encodeI16, List.cons_append, List.nil_append, decodeI16, hu]
  split_ifs with h <;>
    simp only [Except.ok.injEq, Prod.mk.injEq, and_true] <;> omega

theorem decodeI32_encodeI32 (x : Int) (rest : List Nat)
    (h1 : -2147483648 ≤ x) (h2 : x < 2147483648) :
    decodeI32 (encodeI32 x ++ rest) = .ok (x, rest) := by
  have hnn : 0 ≤ x % 4294967296 := Int.emod_nonneg x (by norm_num)
  have hu : (x % 4294967296).toNat / 16777216 * 16777216 +
      (x % 4294967296).toNat / 65536 % 256 * 65536 +
      (x % 4294967296).toNat / 256 % 256 * 256 +
      (x % 4294967296).toNat % 256 = (x % 4294967296).toNat := by omega
  simp only [encodeI32, List.cons_append, List.nil_append, decodeI32, hu]
  split_ifs with h <;>
    simp only [Except.ok.injEq, Prod.mk.injEq, and_true] <;> omega

theorem readFixed_append (s rest : List Nat) :
    readFixed s.length (s ++ rest) = .ok (s, rest) := by
  induction s with
  | nil => rfl
  | cons b bs ih =>
      simp [readFixed, ih, List.length_cons, List.cons_append, ok_bind]

theorem decodeString_encodeString (s rest : List Nat) (h : s.length < 32768) :
    decodeString (encodeString s ++ rest) = .ok (s, rest) := by
  have hd : decodeI16 (encodeI16 (s.length : Int) ++ (s ++ rest))
      = .ok ((s.length : Int), s ++ rest) :=
    decodeI16_encodeI16 _ _ (by omega) (by omega)
  simp [decodeString, encodeString, List.append_assoc, hd, ok_bind,
    Int.toNat_natCast, readFixed_append, show ¬ ((s.length : Int) < 0) by omega]

theorem decodeNullableString_encodeNullableString (o : Option (List Nat))
    (rest : List Nat) (h : ∀ s, o = some s → s.length < 32768) :
    decodeNullableString (encodeNullableString o ++ rest) = .ok (o, rest) := by
  cases o with
  | none =>
      have hd : decodeI16 (encodeI16 (-1) ++ rest) = .ok (-1, rest) :=
        decodeI16_encodeI16 _ _ (by omega) (by omega)
      simp [decodeNullableString, encodeNullableString, hd, ok_bind]
  | some s =>
      have hs := h s rfl
      have hd : decodeI16 (encodeI16 (s.length : Int) ++ (s ++ rest))
          = .ok ((s.length : Int), s ++ rest) :=
        decodeI16_encodeI16 _ _ (by omega) (by omega)
      simp [decodeNullableString, encodeNullableString, List.append_assoc, hd,
        ok_bind, Int.toNat_natCast, readFixed_append,
        show ¬ ((s.length : Int) < 0) by omega]

theorem decodeN_append {α : Type} (dec : List Nat → Except String (α × List Nat))
    (enc : α → List Nat) (xs : List α) (rest : List Nat)
    (h : ∀ x ∈ xs, ∀ r, dec (enc x ++ r) = .ok (x, r)) :
    decodeN dec xs.length ((xs.map enc).flatten ++ rest) = .ok (xs, rest) := by
  induction xs with
  | nil => rfl
  | cons x xs ih =>
      have hx := h x (List.mem_cons_self x xs) ((xs.map enc).flatten ++ rest)
      simp only [List.length_cons, List.map_cons, List.flatten_cons,
        List.append_assoc, decodeN, hx, ok_bind,
        ih (fun y hy r => h y (List.mem_cons_of_mem x hy) r)]

theorem decodeVec_encodeVec {α : Type} (dec : List Nat → Except String (α × List Nat))
    (enc : α → List Nat) (xs : List α) (rest : List Nat)
    (hlen : xs.length < 2147483648)
    (h : ∀ x ∈ xs, ∀ r, dec (enc x ++ r) = .ok (x, r)) :
    decodeVec dec (encodeVec enc xs ++ rest) = .ok (xs, rest) := by
  have hd : decodeI32 (encodeI32 (xs.length : Int) ++ ((xs.map enc).flatten ++ rest))
      = .ok ((xs.length : Int), (xs.map enc).flatten ++ rest) :=
    decodeI32_encodeI32 _ _ (by omega) (by omega)
  simp [decodeVec, encodeVec, List.append_assoc, hd, ok_bind,
    Int.toNat_natCast, decodeN_append dec enc xs rest h,
    show ¬ ((xs.length : Int) < 0) by omega]

theorem recordSet_decode_encode (r rest : List Nat) (h : r.length < 2147483648) :
    RecordSet.decode (RecordSet.encode r ++ rest) = .ok (r, rest) := by
  have hd : decodeI32 (encodeI32 (r.length : Int) ++ (r ++ rest))
      = .ok ((r.length : Int), r ++ rest) :=
    decodeI32_encodeI32 _ _ (by omega) (by omega)
  simp [RecordSet.decode, RecordSet.encode, List.append_assoc, hd, ok_bind,
    Int.toNat_natCast, readFixed_append, show ¬ ((r.length : Int) < 0) by omega]

theorem partition_decode_encode (p : PartitionProduceData)
    (rest : List Nat) (v : Int) (h : p.valid) :
    PartitionProduceData.decode (p.encode v ++ rest) v = .ok (p, rest) := by
  obtain ⟨h1, h2, h3⟩ := h
  have hd : decodeI32 (encodeI32 p.partition_index ++ (RecordSet.encode p.records ++ rest))
      = .ok (p.partition_index, RecordSet.encode p.records ++ rest) :=
    decodeI32_encodeI32 _ _ h1 h2
  simp [PartitionProduceData.decode, PartitionProduceData.encode,
    List.append_assoc, hd, ok_bind, recordSet_decode_encode p.records rest h3]

theorem topic_decode_encode (t : TopicProduceData)
    (rest : List Nat) (v : Int) (h : t.valid) :
    TopicProduceData.decode (t.encode v ++ rest) v = .ok (t, rest) := by
  obtain ⟨h1, h2, h3⟩ := h
  have hn : decodeString (encodeString t.name ++
      (encodeVec (fun p => p.encode v) t.partitions ++ rest))
      = .ok (t.name, encodeVec (fun p => p.encode v) t.partitions ++ rest) :=
    decodeString_encodeString _ _ h1
  have hp : decodeVec (fun b => PartitionProduceData.decode b v)
      (encodeVec (fun p => p.encode v) t.partitions ++ rest)
      = .ok (t.partitions, rest) :=
    decodeVec_encodeVec _ _ _ _ h2
      (fun p hp r => partition_decode_encode p r v (h3 p hp))
  simp [TopicProduceData.decode, List.append_assoc, TopicProduceData.encode,
    hn, hp, ok_bind]

theorem produceRequest_decode_encode (req : ProduceRequest) (v : Int)
    (h : req.valid) :
    ProduceRequest.decode (ProduceRequest.encode req v) v =
      .ok ({ req with transactional_id :=
               if 3 ≤ v then req.transactional_id else none }, []) := by
  obtain ⟨htid0, ha1, ha2, ht1, ht2, hl, htop⟩ := h
  have htid : ∀ s, req.transactional_id = some s → s.length < 32768 :=
    fun s hs => htid0 s (by rw [hs]; simp)
  have hacks : ∀ r, decodeI16 (encodeI16 req.acks ++ r) = .ok (req.acks, r) :=
    fun r => decodeI16_encodeI16 _ _ ha1 ha2
  have htms : ∀ r, decodeI32 (encodeI32 req.timeout_ms ++ r) = .ok (req.timeout_ms, r) :=
    fun r => decodeI32_encodeI32 _ _ ht1 ht2
  have htopics : decodeVec (fun b => TopicProduceData.decode b v)
      (encodeVec (fun t => t.encode v) req.topics)
      = .ok (req.topics, []) := by
    have := decodeVec_encodeVec (fun b => TopicProduceData.decode b v)
      (fun t => t.encode v) req.topics [] hl
      (fun t ht r => topic_decode_encode t r v (htop t ht))
    simpa using this
  by_cases hv : 3 ≤ v
  · have htid2 : decodeNullableString (encodeNullableString req.transactional_id ++
        (encodeI16 req.acks ++ (encodeI32 req.timeout_ms ++
          encodeVec (fun t => t.encode v) req.topics)))
        = .ok (req.transactional_id, encodeI16 req.acks ++ (encodeI32 req.timeout_ms ++
          encodeVec (fun t => t.encode v) req.topics)) :=
      decodeNullableString_encodeNullableString _ _ htid
    simp only [ProduceRequest.decode, ProduceRequest.encode, hv, if_true,
      List.append_assoc, htid2, ok_bind, hacks, htms, htopics]
  · simp only [ProduceRequest.decode, ProduceRequest.encode, hv, if_false,
      List.nil_append, List.append_assoc, ok_bind, hacks, htms, htopics]


/-! ## Zero-copy file-encode path (request.rs lines 94-157)

`BytesMut` header buffers are modelled as byte lists and `Vec<StoreValue>`
side channels as lists of `StoreValue`; each `file_encode` takes the current
`(src, data)` state and returns the updated state. -/

/-- `StoreValue` (store collaborator, modelled from the spec §4.3): a
descriptor is either an inline byte span or a reference into persisted
storage; the reference is modelled by the bytes of its window. -/
inductive StoreValue
  | Bytes (b : List Nat)
  | FileSlice (slice : List Nat)
deriving DecidableEq, Repr

/-- Resolving a descriptor yields its bytes (for a file reference, the bytes
of the referenced window). -/
def StoreValue.resolve : StoreValue → List Nat
  | .Bytes b => b
  | .FileSlice s => s

/-- Modelled from the spec: `FileRecordSet::file_encode` (record collaborator,
not under the verified sources).  It writes the payload's 32-bit length into
the header buffer, then moves the header buffer's entire contents into an
inline `Bytes` descriptor and appends a `FileSlice` descriptor for the payload
window, so that the side list replayed in encounter order reconstructs the
full logical stream (spec §4.3). -/
def FileRecordSet.file_encode (records : List Nat) (src : List Nat)
    (data : List StoreValue) (_version : Int) : List Nat × List StoreValue :=
  ([], data ++ [StoreValue.Bytes (src ++ encodeI32 (records.length : Int)),
                StoreValue.FileSlice records])

/-- `FilePartitionRequest::file_encode` (request.rs lines 145-157): the
partition index goes into the header buffer, the records go through the
payload's `file_encode`. -/
def FilePartitionRequest.file_encode (p : PartitionProduceData)
    (src : List Nat) (data : List StoreValue) (version : Int) :
    List Nat × List StoreValue :=
  FileRecordSet.file_encode p.records (src ++ encodeI32 p.partition_index)
    data version

/-- Fold a `file_encode` item encoder over a sequence, threading the state. -/
def fileEncodeList
    (f : α → List Nat → List StoreValue → Int → List Nat × List StoreValue) :
    List α → List Nat → List StoreValue → Int → List Nat × List StoreValue
  | [], src, data, _ => (src, data)
  | x :: xs, src, data, version =>
      let sd := f x src data version
      fileEncodeList f xs sd.1 sd.2 version

/-- Modelled from the spec: `Vec<T>::file_encode` (collaborator) writes the
32-bit count into the header buffer and then runs each item's `file_encode`
in sequence order. -/
def vecFileEncode
    (f : α → List Nat → List StoreValue → Int → List Nat × List StoreValue)
    (xs : List α) (src : List Nat) (data : List StoreValue) (version : Int) :
    List Nat × List StoreValue :=
  fileEncodeList f xs (src ++ encodeI32 (xs.length : Int)) data version

/-- `FileTopicRequest::file_encode` (request.rs lines 131-143): the topic name
goes into the header buffer, then the partitions. -/
def FileTopicRequest.file_encode (t : TopicProduceData) (src : List Nat)
    (data : List StoreValue) (version : Int) : List Nat × List StoreValue :=
  vecFileEncode FilePartitionRequest.file_encode t.partitions
    (src ++ encodeString t.name) data version

/-- `FileProduceRequest::file_encode` (request.rs lines 115-128).  Line 123
calls `self.transactional_id.encode(src, version)` directly, so the nullable
string is written at every version: the `min_version = 3` gate lives in the
derived standard encoder, not in the primitive, and this path does not
replicate it. -/
def FileProduceRequest.file_encode (req : ProduceRequest) (src : List Nat)
    (data : List StoreValue) (version : Int) : List Nat × List StoreValue :=
  vecFileEncode FileTopicRequest.file_encode req.topics
    (src ++ encodeNullableString req.transactional_id ++ encodeI16 req.acks ++
      encodeI32 req.timeout_ms) data version

/-- The transport's assembled wire bytes: the resolved descriptors in
encounter order, followed by whatever remains in the header buffer. -/
def flattenOutput (st : List Nat × List StoreValue) : List Nat :=
  (st.2.map StoreValue.resolve).flatten ++ st.1

/-! ### Flattening and frame lemmas for the file path -/

theorem flattenOutput_fileRecordSet (r src : List Nat) (data : List StoreValue)
    (v : Int) :
    flattenOutput (FileRecordSet.file_encode r src data v)
      = flattenOutput (src, data) ++ RecordSet.encode r := by
  simp [flattenOutput, FileRecordSet.file_encode, StoreValue.resolve,
    RecordSet.encode, List.append_assoc]

theorem flattenOutput_filePartition (p : PartitionProduceData) (src : List Nat)
    (data : List StoreValue) (v : Int) :
    flattenOutput (FilePartitionRequest.file_encode p src data v)
      = flattenOutput (src, data) ++ p.encode v := by
  show flattenOutput (FileRecordSet.file_encode p.records
      (src ++ encodeI32 p.partition_index) data v) = _
  rw [flattenOutput_fileRecordSet]
  simp [flattenOutput, PartitionProduceData.encode, List.append_assoc]

theorem flattenOutput_fileEncodeList {α : Type}
    (f : α → List Nat → List StoreValue → Int → List Nat × List StoreValue)
    (enc : α → Int → List Nat) (v : Int)
    (hf : ∀ x src data, flattenOutput (f x src data v)
            = flattenOutput (src, data) ++ enc x v) :
    ∀ (xs : List α) (src : List Nat) (data : List StoreValue),
      flattenOutput (fileEncodeList f xs src data v)
        = flattenOutput (src, data) ++ (xs.map (fun x => enc x v)).flatten := by
  intro xs
  induction xs with
  | nil => intro src data; simp [fileEncodeList]
  | cons x xs ih =>
      intro src data
      have hstep := hf x src data
      calc flattenOutput (fileEncodeList f (x :: xs) src data v)
          = flattenOutput (fileEncodeList f xs (f x src data v).1 (f x src data v).2 v) := rfl
        _ = flattenOutput (f x src data v) ++ (xs.map (fun x => enc x v)).flatten := by
              rw [ih]
        _ = flattenOutput (src, data) ++ enc x v ++ (xs.map (fun x => enc x v)).flatten := by
              rw [hstep]
        _ = flattenOutput (src, data) ++ ((x :: xs).map (fun x => enc x v)).flatten := by
              simp [List.append_assoc]

theorem flattenOutput_fileTopic (t : TopicProduceData) (src : List Nat)
    (data : List StoreValue) (v : Int) :
    flattenOutput (FileTopicRequest.file_encode t src data v)
      = flattenOutput (src, data) ++ t.encode v := by
  have h := flattenOutput_fileEncodeList FilePartitionRequest.file_encode
    (fun p v => p.encode v) v (fun p src data => flattenOutput_filePartition p src data v)
    t.partitions (src ++ encodeString t.name) data
  simp only [FileTopicRequest.file_encode, vecFileEncode,
    flattenOutput_fileEncodeList FilePartitionRequest.file_encode
      (fun p v => p.encode v) v
      (fun p src data => flattenOutput_filePartition p src data v)]
  simp [flattenOutput, TopicProduceData.encode, encodeVec, List.append_assoc]

theorem flattenOutput_fileProduceRequest (req : ProduceRequest) (src : List Nat)
    (data : List StoreValue) (v : Int) :
    flattenOutput (FileProduceRequest.file_encode req src data v)
      = flattenOutput (src, data) ++ encodeNullableString req.transactional_id ++
          encodeI16 req.acks ++ encodeI32 req.timeout_ms ++
          encodeVec (fun t => t.encode v) req.topics := by
  simp only [FileProduceRequest.file_encode, vecFileEncode,
    flattenOutput_fileEncodeList FileTopicRequest.file_encode
      (fun t v => t.encode v) v
      (fun t src data => flattenOutput_fileTopic t src data v)]
  simp [flattenOutput, encodeVec, List.append_assoc]



/-! ## Shared corollaries used by several claims -/

/-- For any version admitting the transactional id (`3 ≤ v`), assembling the
file-encode output (resolved descriptors in order, then the header remainder)
reproduces the standard encoding. -/
theorem flattenOutput_file_encode_eq_encode (req : ProduceRequest) (v : Int)
    (hv : 3 ≤ v) :
    flattenOutput (FileProduceRequest.file_encode req [] [] v)
      = ProduceRequest.encode req v := by
  rw [flattenOutput_fileProduceRequest]
  simp [flattenOutput, ProduceRequest.encode, hv, List.append_assoc]

theorem filePartition_data_append (p : PartitionProduceData) (src : List Nat)
    (data : List StoreValue) (v : Int) :
    ∃ d, (FilePartitionRequest.file_encode p src data v).2 = data ++ d :=
  ⟨[StoreValue.Bytes (src ++ encodeI32 p.partition_index ++
      encodeI32 (p.records.length : Int)), StoreValue.FileSlice p.records],
    by simp [FilePartitionRequest.file_encode, FileRecordSet.file_encode,
         List.append_assoc]⟩

theorem fileEncodeList_data_append {α : Type}
    (f : α → List Nat → List StoreValue → Int → List Nat × List StoreValue)
    (v : Int)
    (hf : ∀ x src data, ∃ d, (f x src data v).2 = data ++ d) :
    ∀ (xs : List α) (src : List Nat) (data : List StoreValue),
      ∃ d, (fileEncodeList f xs src data v).2 = data ++ d := by
  intro xs
  induction xs with
  | nil => intro src data; exact ⟨[], by simp [fileEncodeList]⟩
  | cons x xs ih =>
      intro src data
      obtain ⟨d1, h1⟩ := hf x src data
      obtain ⟨d2, h2⟩ := ih (f x src data v).1 (f x src data v).2
      refine ⟨d1 ++ d2, ?_⟩
      show (fileEncodeList f xs (f x src data v).1 (f x src data v).2 v).2 = _
      rw [h2, h1, List.append_assoc]

theorem fileTopic_data_append (t : TopicProduceData) (src : List Nat)
    (data : List StoreValue) (v : Int) :
    ∃ d, (FileTopicRequest.file_encode t src data v).2 = data ++ d :=
  fileEncodeList_data_append FilePartitionRequest.file_encode v
    (fun p src data => filePartition_data_append p src data v)
    t.partitions _ data

theorem fileProduceRequest_data_append (req : ProduceRequest) (src : List Nat)
    (data : List StoreValue) (v : Int) :
    ∃ d, (FileProduceRequest.file_encode req src data v).2 = data ++ d :=
  fileEncodeList_data_append FileTopicRequest.file_encode v
    (fun t src data => fileTopic_data_append t src data v)
    req.topics _ data

/-! ## Example values used by witnesses and counterexamples -/

/-- A request with two topics of two partitions each and a transactional id. -/
def sampleRequest : ProduceRequest :=
  { transactional_id := some [104, 105], acks := -1, timeout_ms := 1500,
    topics := [ { name := [65],
                  partitions := [ { partition_index := 0, records := [1, 2, 3] },
                                  { partition_index := 1, records := [4] } ] },
                { name := [66],
                  partitions := [ { partition_index := 2, records := [5] },
                                  { partition_index := 3, records := [] } ] } ] }

/-- `sampleRequest` with an absent transactional id. -/
def sampleRequestNoTid : ProduceRequest :=
  { sampleRequest with transactional_id := none }

/-- `sampleRequest` with an empty (but present) transactional id. -/
def sampleRequestEmptyTid : ProduceRequest :=
  { sampleRequest with transactional_id := some [] }

/-- A topicless request with the given `acks` value. -/
def ackReq (a : Int) : ProduceRequest :=
  { transactional_id := none, acks := a, timeout_ms := 0, topics := [] }

/-- Envelope-only request used for the version-gating divergence. -/
def c4Req : ProduceRequest :=
  { transactional_id := none, acks := 1, timeout_ms := 7, topics := [] }

/-- One topic, one partition: the smallest request with a record payload. -/
def c5Req : ProduceRequest :=
  { transactional_id := none, acks := 1, timeout_ms := 7,
    topics := [ { name := [65],
                  partitions := [ { partition_index := 0, records := [1, 2, 3] } ] } ] }

/-- Two topics with two partitions each, as in the ordering claim. -/
def c7Req : ProduceRequest :=
  { transactional_id := none, acks := 1, timeout_ms := 1,
    topics := [ { name := [65],
                  partitions := [ { partition_index := 0, records := [1] },
                                  { partition_index := 1, records := [2] } ] },
                { name := [66],
                  partitions := [ { partition_index := 2, records := [3] },
                                  { partition_index := 3, records := [4] } ] } ] }



/-! ## Claims -/

/-- **C1 counterexample**: the round-trip law fails as stated.  At version 0
a request carrying a transactional id encodes without it (the field is gated
to versions ≥ 3), so decoding returns a request with `transactional_id =
none`, not the original request. -/
theorem C1_counterexample :
    ProduceRequest.decode
        (ProduceRequest.encode { transactional_id := some [104, 105], acks := 1,
                                 timeout_ms := 0, topics := [] } 0) 0 ≠
      Except.ok (({ transactional_id := some [104, 105], acks := 1,
                    timeout_ms := 0, topics := [] } : ProduceRequest), []) := by
  decide

/-- **C1 (amended)**: for every version v ∈ [0,7] and every well-formed
request whose transactional id is representable at v (absent, or v ≥ 3),
decoding the encoding at v returns exactly the original request. -/
theorem C1_roundtrip (req : ProduceRequest) (v : Int)
    (_h0 : 0 ≤ v) (_h7 : v ≤ 7) (hval : req.valid)
    (htid : req.transactional_id = none ∨ 3 ≤ v) :
    ProduceRequest.decode (ProduceRequest.encode req v) v = .ok (req, []) := by
  rw [produceRequest_decode_encode req v hval]
  have hift : (if 3 ≤ v then req.transactional_id else none)
      = req.transactional_id := by
    rcases htid with h | h
    · by_cases hv : 3 ≤ v <;> simp [h, hv]
    · simp [h]
  rw [hift]

/-- **C1 witness**: the amended round trip at version 7 on a concrete
request with two topics, two partitions each, and a transactional id. -/
theorem C1_witness :
    (0 : Int) ≤ 7 ∧ (7 : Int) ≤ 7 ∧ sampleRequest.valid ∧
      ProduceRequest.decode (ProduceRequest.encode sampleRequest 7) 7 =
        .ok (sampleRequest, []) :=
  ⟨by norm_num, by norm_num, by decide,
    C1_roundtrip sampleRequest 7 (by norm_num) (by norm_num) (by decide)
      (Or.inr (by norm_num))⟩

/-- **C2**: below version 3 the standard encoding carries no bytes for
`transactional_id` (the output does not depend on the field at all); at
version 3 the field is written with the nullable-string encoding, so an
absent id decodes back to `none` and an empty id decodes back to `some []`
— absent and empty are distinguished, with no empty-string substitution. -/
theorem C2_transactional_id_gating :
    (∀ (req : ProduceRequest) (x : Option (List Nat)) (v : Int), v < 3 →
        ProduceRequest.encode { req with transactional_id := x } v =
          ProduceRequest.encode req v) ∧
    (∀ req : ProduceRequest, req.valid → req.transactional_id = none →
        ProduceRequest.decode (ProduceRequest.encode req 3) 3 = .ok (req, [])) ∧
    (∀ req : ProduceRequest, req.valid → req.transactional_id = some [] →
        ProduceRequest.decode (ProduceRequest.encode req 3) 3 = .ok (req, [])) := by
  refine ⟨?_, ?_, ?_⟩
  · intro req x v hv
    simp [ProduceRequest.encode, show ¬ (3 ≤ v) by omega]
  · intro req hval _
    simpa using produceRequest_decode_encode req 3 hval
  · intro req hval _
    simpa using produceRequest_decode_encode req 3 hval

/-- **C2 witness**: concrete instances of the three conjuncts. -/
theorem C2_witness :
    ProduceRequest.encode { sampleRequest with transactional_id := some [9] } 0
        = ProduceRequest.encode sampleRequest 0 ∧
      ProduceRequest.decode (ProduceRequest.encode sampleRequestNoTid 3) 3 =
        .ok (sampleRequestNoTid, []) ∧
      ProduceRequest.decode (ProduceRequest.encode sampleRequestEmptyTid 3) 3 =
        .ok (sampleRequestEmptyTid, []) :=
  ⟨C2_transactional_id_gating.1 sampleRequest (some [9]) 0 (by norm_num),
    C2_transactional_id_gating.2.1 sampleRequestNoTid (by decide) rfl,
    C2_transactional_id_gating.2.2 sampleRequestEmptyTid (by decide) rfl⟩

/-- **C3**: the isolation mapping sends `acks = -1` to `ReadCommitted` and
`acks = 0` or `1` to `ReadUncommitted`. -/
theorem C3_isolation (req : ProduceRequest) :
    (req.acks = -1 → req.isolation = Isolation.ReadCommitted) ∧
    (req.acks = 0 → req.isolation = Isolation.ReadUncommitted) ∧
    (req.acks = 1 → req.isolation = Isolation.ReadUncommitted) := by
  refine ⟨fun h => ?_, fun h => ?_, fun h => ?_⟩ <;>
    simp [ProduceRequest.isolation, h]

/-- **C3 witness**: the three mappings at concrete requests. -/
theorem C3_witness :
    (ackReq (-1)).isolation = Isolation.ReadCommitted ∧
      (ackReq 0).isolation = Isolation.ReadUncommitted ∧
      (ackReq 1).isolation = Isolation.ReadUncommitted :=
  ⟨(C3_isolation (ackReq (-1))).1 rfl, (C3_isolation (ackReq 0)).2.1 rfl,
    (C3_isolation (ackReq 1)).2.2 rfl⟩

/-- **C4**: the zero-copy header diverges from the standard encoder.
`file_encode` writes the nullable transactional id unconditionally
(request.rs line 123 calls the primitive encoder directly, with no
`min_version = 3` gate), so at version 0 the header buffer starts with the
two-byte null marker that the standard encoder omits. -/
theorem C4_header_gating_divergence :
    (FileProduceRequest.file_encode c4Req [] [] 0).1
        = encodeI16 (-1) ++ ProduceRequest.encode c4Req 0 ∧
      (FileProduceRequest.file_encode c4Req [] [] 0).1
        ≠ ProduceRequest.encode c4Req 0 := by
  decide

/-- **C5**: the flattening equivalence fails for v < 3: the assembled
file-encode output carries the spurious null transactional-id marker in
front of what the standard encoder produces. -/
theorem C5_flatten_divergence :
    ((FileProduceRequest.file_encode c5Req [] [] 0).1 ++
        (((FileProduceRequest.file_encode c5Req [] [] 0).2).map
            StoreValue.resolve).flatten)
        ≠ ProduceRequest.encode c5Req 0 ∧
      ((FileProduceRequest.file_encode c5Req [] [] 0).1 ++
        (((FileProduceRequest.file_encode c5Req [] [] 0).2).map
            StoreValue.resolve).flatten)
        = encodeI16 (-1) ++ ProduceRequest.encode c5Req 0 := by
  decide

/-- **C6 counterexample**: `acks = -2` is none of -1, 0, 1, yet it is
classified under the `< 0` branch, i.e. it maps to `ReadCommitted`, not
`ReadUncommitted` as the claim states. -/
theorem C6_counterexample :
    (ackReq (-2)).acks ≠ -1 ∧ (ackReq (-2)).acks ≠ 0 ∧ (ackReq (-2)).acks ≠ 1 ∧
      (ackReq (-2)).isolation ≠ Isolation.ReadUncommitted := by
  decide

/-- **C6 (amended)**: the isolation mapping is total over the signed 16-bit
domain with no error case; every value is classified by the single sign
comparison: negative `acks` map to `ReadCommitted` and non-negative `acks`
to `ReadUncommitted`. -/
theorem C6_totality (req : ProduceRequest)
    (_h1 : -32768 ≤ req.acks) (_h2 : req.acks < 32768) :
    (req.isolation = Isolation.ReadCommitted ∨
        req.isolation = Isolation.ReadUncommitted) ∧
      (req.acks < 0 → req.isolation = Isolation.ReadCommitted) ∧
      (0 ≤ req.acks → req.isolation = Isolation.ReadUncommitted) := by
  unfold ProduceRequest.isolation
  by_cases h : req.acks < 0 <;> simp [h]

/-- **C6 witness**: the amended classification at `acks = 5`. -/
theorem C6_witness :
    -32768 ≤ (ackReq 5).acks ∧ (ackReq 5).acks < 32768 ∧
      ((ackReq 5).isolation = Isolation.ReadCommitted ∨
        (ackReq 5).isolation = Isolation.ReadUncommitted) :=
  ⟨by decide, by decide, (C6_totality (ackReq 5) (by decide) (by decide)).1⟩



/-- **C7 counterexample**: the ordering guarantee fails as stated for the
file-backed encode path below version 3.  For the two-topic, two-partition
request, the bytes assembled from `file_encode` at version 0 start with the
spurious transactional-id marker, and decoding them fails outright — no
topics are returned at all, in order or otherwise. -/
theorem C7_counterexample :
    ProduceRequest.decode
        (flattenOutput (FileProduceRequest.file_encode c7Req [] [] 0)) 0
      = Except.error "not enough bytes" := by
  decide

/-- **C7 (amended)**: decode returns the topic and partition sequences in
exactly the order they were encoded: the standard path round-trips the
`topics` list verbatim at every version in [0,7], and the file path does so
for versions ≥ 3 (below 3 its output includes the ungated transactional id
and does not decode to the original request). -/
theorem C7_ordering (req : ProduceRequest) (v : Int)
    (_h0 : 0 ≤ v) (_h7 : v ≤ 7) (hval : req.valid) :
    (ProduceRequest.decode (ProduceRequest.encode req v) v =
        .ok ({ req with transactional_id :=
                 if 3 ≤ v then req.transactional_id else none }, []) ∧
      ({ req with transactional_id :=
           if 3 ≤ v then req.transactional_id else none } :
         ProduceRequest).topics = req.topics) ∧
    (3 ≤ v →
      ProduceRequest.decode
          (flattenOutput (FileProduceRequest.file_encode req [] [] v)) v =
        .ok (req, [])) := by
  refine ⟨⟨produceRequest_decode_encode req v hval, rfl⟩, fun hv => ?_⟩
  rw [flattenOutput_file_encode_eq_encode req v hv,
    produceRequest_decode_encode req v hval]
  simp [hv]

/-- **C7 witness**: ordering preservation at version 7 on the two-topic,
two-partition sample request, along both encode paths. -/
theorem C7_witness :
    (0 : Int) ≤ 7 ∧ (7 : Int) ≤ 7 ∧ c7Req.valid ∧
      (ProduceRequest.decode (ProduceRequest.encode c7Req 7) 7 =
          .ok ({ c7Req with transactional_id :=
                   if 3 ≤ (7 : Int) then c7Req.transactional_id else none }, []) ∧
        ({ c7Req with transactional_id :=
             if 3 ≤ (7 : Int) then c7Req.transactional_id else none } :
           ProduceRequest).topics = c7Req.topics) ∧
      ((3 : Int) ≤ 7 →
        ProduceRequest.decode
            (flattenOutput (FileProduceRequest.file_encode c7Req [] [] 7)) 7 =
          .ok (c7Req, [])) :=
  ⟨by norm_num, by norm_num, by decide,
    (C7_ordering c7Req 7 (by norm_num) (by norm_num) (by decide)).1,
    (C7_ordering c7Req 7 (by norm_num) (by norm_num) (by decide)).2⟩

/-- Decoding a 32-bit integer from fewer than four bytes is a codec error. -/
theorem decodeI32_short (bs : List Nat) (h : bs.length < 4) :
    decodeI32 bs = .error "not enough bytes for i32" := by
  rcases bs with _ | ⟨a, _ | ⟨b, _ | ⟨c, _ | ⟨d, tl⟩⟩⟩⟩ <;>
    first
      | rfl
      | (exfalso; simp [List.length_cons] at h; omega)

/-- **C8**: decoding any buffer that ends inside the `timeout_ms` field — a
well-formed (version-gated) transactional id, a complete `acks`, then fewer
than the four bytes `timeout_ms` needs — returns a codec error; no
partially populated request is produced and no default value is
substituted. -/
theorem C8_truncated_timeout (tid : Option (List Nat)) (acks : Int) (v : Int)
    (truncBytes : List Nat)
    (htid : ∀ s, tid = some s → s.length < 32768)
    (ha1 : -32768 ≤ acks) (ha2 : acks < 32768)
    (hlen : truncBytes.length < 4) :
    ProduceRequest.decode
        ((if 3 ≤ v then encodeNullableString tid else []) ++
          (encodeI16 acks ++ truncBytes)) v
      = .error "not enough bytes for i32" := by
  have hacks : decodeI16 (encodeI16 acks ++ truncBytes) = .ok (acks, truncBytes) :=
    decodeI16_encodeI16 acks truncBytes ha1 ha2
  have hshort := decodeI32_short truncBytes hlen
  by_cases hv : 3 ≤ v
  · have htid2 : decodeNullableString (encodeNullableString tid ++
        (encodeI16 acks ++ truncBytes))
        = .ok (tid, encodeI16 acks ++ truncBytes) :=
      decodeNullableString_encodeNullableString tid _ htid
    simp only [ProduceRequest.decode, hv, if_true, htid2, ok_bind, hacks,
      hshort, error_bind]
  · simp only [ProduceRequest.decode, hv, if_false, List.nil_append, ok_bind,
      hacks, hshort, error_bind]

/-- **C8 witness**: a concrete version-0 buffer holding `acks` and two of the
four `timeout_ms` bytes. -/
theorem C8_witness :
    ProduceRequest.decode
        ((if (3 : Int) ≤ 0 then encodeNullableString none else []) ++
          (encodeI16 1 ++ [0, 0])) 0
      = .error "not enough bytes for i32" :=
  C8_truncated_timeout none 1 0 [0, 0] (fun s hs => by cases hs)
    (by norm_num) (by norm_num) (by norm_num)

/-- **C9**: the produce request's API identity constants: key 0, minimum
version 0, maximum version 7, default version 7. -/
theorem C9_api_identity :
    ProduceRequest.API_KEY = 0 ∧ ProduceRequest.MIN_API_VERSION = 0 ∧
      ProduceRequest.MAX_API_VERSION = 7 ∧
      ProduceRequest.DEFAULT_API_VERSION = 7 :=
  ⟨rfl, rfl, rfl, rfl⟩

/-- **C10 counterexample**: the header buffer is not append-only.  Starting
`file_encode` with `[7]` already in the header buffer and encoding a request
with one record payload leaves a header buffer that no longer begins with
`7`: the prior contents were moved into an inline descriptor. -/
theorem C10_counterexample :
    ((FileProduceRequest.file_encode c5Req [7] [] 7).1).take 1 ≠ [7] := by
  decide

/-- **C10 (amended)**: `file_encode` is append-only for the descriptor list
and for the logical stream: the prior descriptor list is an unchanged prefix
of the new one, and the flattened state (resolved descriptors, then header
buffer) equals the prior flattened state followed by exactly the bytes the
call contributes from the empty state.  The header buffer itself is not
append-only: at each payload its contents are moved into an inline `Bytes`
descriptor. -/
theorem C10_frame (req : ProduceRequest) (src : List Nat)
    (data : List StoreValue) (v : Int) :
    (∃ d, (FileProduceRequest.file_encode req src data v).2 = data ++ d) ∧
      flattenOutput (FileProduceRequest.file_encode req src data v)
        = flattenOutput (src, data) ++
            flattenOutput (FileProduceRequest.file_encode req [] [] v) := by
  refine ⟨fileProduceRequest_data_append req src data v, ?_⟩
  rw [flattenOutput_fileProduceRequest, flattenOutput_fileProduceRequest]
  simp [flattenOutput, List.append_assoc]


end Fluvio
